import Mathlib

/-
Shallow embedding of the hooktuah event forwarder (src/types.ts, src/utils.ts
and the EventForwarder class) together with the rxjs operator semantics the
class relies on (interval-driven polling Observables, the `retry` operator's
delay-notifier protocol, and the webSocket subject's deserializer handling).

Modelling conventions:
  * Promise resolution is immediate (`await Promise.resolve x` is `x`);
    promise rejection / thrown exceptions are `Except.error`.
  * JavaScript truthiness checks on optional config fields are modelled
    field by field: an absent (`Option.none`) string and the empty string
    are falsy, an absent number and `0` are falsy.
  * Stateful user callbacks (the `shouldFetch` gate closes over mutable
    state in the tests) are modelled by threading an explicit state `σ`.
  * Network effects (fetch responses, webhook responses) are supplied by
    oracles: per-tick or per-event values describing what the transport
    returned.
  * The event loop is serialised: each tick's asynchronous work completes
    before the next tick fires (the non-overlapping schedule).
-/

namespace Hooktuah

/-- Error values carried by thrown exceptions and rejected promises. -/
abbrev Err := String

/-- Parsed JSON values (no arrays/objects needed by the claims; scalars
suffice to express JavaScript truthiness of parsed data). -/
inductive Json : Type
  | null
  | bool (b : Bool)
  | num (n : Int)
  | str (s : String)
  deriving DecidableEq, Repr

/-- JavaScript truthiness of a parsed JSON value: `null`, `false`, `0` and
the empty string are falsy. -/
def Json.truthy : Json → Bool
  | Json.null => false
  | Json.bool b => b
  | Json.num n => decide (n ≠ 0)
  | Json.str s => decide (s ≠ "")

/-- validateInput from src/utils.ts: `if (!data) throw new Error(...)`. -/
def validateInput (data : Json) : Except Err Json :=
  if data.truthy then Except.ok data else Except.error "Invalid input data"

/-- Truthiness of an optional string field (`!config.sourceUrl`):
absent or empty is falsy. -/
def strTruthy : Option String → Bool
  | none => false
  | some s => decide (s ≠ "")

/-- Truthiness of an optional numeric field (`!config.pollInterval`):
absent or zero is falsy. -/
def natTruthy : Option Nat → Bool
  | none => false
  | some n => decide (n ≠ 0)

/-- RequestConfig from src/types.ts. `body` holds the already-resolved
value (`TRequest | Promise<TRequest>` collapses under await). -/
structure RequestConfig (TReq : Type) where
  method : Option String := none
  headers : List (String × String) := []
  body : Option TReq := none

/-- The three source kinds of ForwarderConfig.type. -/
inductive SourceKind : Type
  | websocket
  | poll
  | custom
  deriving DecidableEq, Repr

/-- Settlement of the promise returned by a custom `createStream` factory:
it resolves to an rxjs Observable (modelled by the finite list of events it
will deliver), resolves to a plain cleanup function, or rejects. -/
inductive FactoryOutcome (TIn : Type) : Type
  | stream (events : List TIn)
  | cleanupFn
  | rejects (e : Err)

/-- A possibly-stateful, possibly-throwing `shouldFetch` gate: given the
closure state and the resolved request body it returns a verdict (or
throws) plus the updated closure state. -/
abbrev Gate (TReq σ : Type) := σ → Option TReq → Except Err Bool × σ

/-- ForwarderConfig from src/types.ts. `customFetch` is not carried as a
field: the polling model receives the per-tick fetch outcome from an
oracle, which covers both the default fetch and a caller-supplied one. -/
structure ForwarderConfig (TReq TIn TOut σ : Type) where
  type : SourceKind
  sourceUrl : Option String := none
  webhookUrl : String
  requestConfig : Option (RequestConfig TReq) := none
  pollInterval : Option Nat := none
  shouldFetch : Option (Gate TReq σ) := none
  transform : Option (TIn → Except Err TOut) := none
  createStream : Option (FactoryOutcome TIn) := none

/-- Resolution of `config.requestConfig?.body` in shouldProcessEvent:
the optional chain yields the body when a request config is present
(the body's own truthiness check coincides with presence for the
structured request bodies the library is used with). -/
def resolveBody {TReq TIn TOut σ : Type}
    (c : ForwarderConfig TReq TIn TOut σ) : Option TReq :=
  match c.requestConfig with
  | none => none
  | some rc => rc.body

/-- shouldProcessEvent from EventForwarder: with no gate the event always
proceeds; otherwise the resolved request body (never the arriving event)
is passed to `shouldFetch`. -/
def shouldProcessEvent {TReq TIn TOut σ : Type}
    (c : ForwarderConfig TReq TIn TOut σ) (s : σ) : Except Err Bool × σ :=
  match c.shouldFetch with
  | none => (Except.ok true, s)
  | some g => g s (resolveBody c)

/-- Response.ok in the Fetch API: status in [200, 300). -/
def statusOk (status : Nat) : Bool := decide (200 ≤ status) && decide (status < 300)

/-- forwardToWebhook from EventForwarder: POST the serialised event; a
non-ok status throws `Webhook error: status`; the catch logs and
rethrows, so the failure propagates to the caller. `whStatus` is the
transport outcome of this event's webhook call. -/
def forwardToWebhook (whStatus : Except Err Nat) : Except Err Unit :=
  match whStatus with
  | Except.error e => Except.error e
  | Except.ok status =>
      if statusOk status then Except.ok ()
      else Except.error ("Webhook error: " ++ toString status)

/-- Outcome of one event's run through the per-event pipeline (the `next`
handler in subscribe, identical for the custom branch and the
websocket/poll branch). -/
inductive PipelineOutcome (TOut : Type) : Type
  | forwarded (payload : TOut)
  | skipped
  | errorLogged (e : Err)

/-- Try-block of the per-event `next` handler: gate, then transform
(`data as unknown as TOutput` when absent, modelled by `idCast`), then
forward. `Except.error` is an exception escaping the try-block;
`Except.ok none` is the early return on a false gate. -/
def pipelineBody {TReq TIn TOut σ : Type} (idCast : TIn → TOut)
    (c : ForwarderConfig TReq TIn TOut σ) (s : σ) (data : TIn)
    (whStatus : Except Err Nat) : Except Err (Option TOut) × σ :=
  match shouldProcessEvent c s with
  | (Except.error e, s2) => (Except.error e, s2)
  | (Except.ok false, s2) => (Except.ok none, s2)
  | (Except.ok true, s2) =>
      match (match c.transform with
             | some t => t data
             | none => Except.ok (idCast data)) with
      | Except.error e => (Except.error e, s2)
      | Except.ok out =>
          match forwardToWebhook whStatus with
          | Except.error e => (Except.error e, s2)
          | Except.ok _ => (Except.ok (some out), s2)

/-- The per-event `next` handler: the whole try-block is wrapped in
`try/catch`, so an escaping exception is logged per event and the handler
returns normally. -/
def processEvent {TReq TIn TOut σ : Type} (idCast : TIn → TOut)
    (c : ForwarderConfig TReq TIn TOut σ) (s : σ) (data : TIn)
    (whStatus : Except Err Nat) : PipelineOutcome TOut × σ :=
  match pipelineBody idCast c s data whStatus with
  | (Except.error e, s2) => (PipelineOutcome.errorLogged e, s2)
  | (Except.ok none, s2) => (PipelineOutcome.skipped, s2)
  | (Except.ok (some p), s2) => (PipelineOutcome.forwarded p, s2)

/-- Delivery of a finite sequence of events to the `next` handler: each
event arrives paired with its webhook transport outcome; the gate's
closure state is threaded through. -/
def runPipeline {TReq TIn TOut σ : Type} (idCast : TIn → TOut)
    (c : ForwarderConfig TReq TIn TOut σ) (s : σ) :
    List (TIn × Except Err Nat) → List (PipelineOutcome TOut) × σ
  | [] => ([], s)
  | (d, wh) :: rest =>
      let r := processEvent idCast c s d wh
      let rr := runPipeline idCast c r.2 rest
      (r.1 :: rr.1, rr.2)

/-- A stored teardown handle (`Subscription | (() => void)` in
`private subs`): an rxjs subscription handle or a plain cleanup function,
each stopping one underlying resource identified by `resId`. -/
inductive Teardown : Type
  | cleanupFn (resId : Nat)
  | subscription (resId : Nat)
  deriving DecidableEq, Repr

/-- Identifier of the resource a teardown handle stops. -/
def Teardown.resId : Teardown → Nat
  | Teardown.cleanupFn r => r
  | Teardown.subscription r => r

/-- Lookup in the `subs` record (`this.subs[id]`). -/
def lookupKey : List (String × Teardown) → String → Option Teardown
  | [], _ => none
  | (k, t) :: rest, key => if k = key then some t else lookupKey rest key

/-- Assignment in the `subs` record (`this.subs[id] = handle`): an
existing key keeps its position, a new key is appended. -/
def setKey : List (String × Teardown) → String → Teardown → List (String × Teardown)
  | [], key, t => [(key, t)]
  | (k, t0) :: rest, key, t =>
      if k = key then (key, t) :: rest else (k, t0) :: setKey rest key t

/-- Deletion from the `subs` record (`delete this.subs[id]`). -/
def eraseKey : List (String × Teardown) → String → List (String × Teardown)
  | [], _ => []
  | (k, t) :: rest, key =>
      if k = key then rest else (k, t) :: eraseKey rest key

/-- State of one EventForwarder instance: the keyed `subs` record, the set
of running resources `(resId, key)` (streams, intervals, connections,
pending factory promises), a fresh-resource counter, and the trace of
resources stopped by an explicit teardown call. -/
structure FwdState : Type where
  subs : List (String × Teardown) := []
  running : List (Nat × String) := []
  nextRes : Nat := 0
  torndown : List Nat := []
  deriving DecidableEq, Repr

/-- unsubscribe from EventForwarder: if the key is present, invoke its
teardown (stopping the resource), then delete the record entry; a no-op
for an absent key. -/
def unsubscribe (st : FwdState) (id : String) : FwdState :=
  match lookupKey st.subs id with
  | none => st
  | some td =>
      { subs := eraseKey st.subs id
        running := st.running.filter (fun p => p.1 ≠ td.resId)
        nextRes := st.nextRes
        torndown := td.resId :: st.torndown }

/-- unsubscribeAll from EventForwarder:
`Object.keys(this.subs).forEach((id) => this.unsubscribe(id))`. -/
def unsubscribeAll (st : FwdState) : FwdState :=
  (st.subs.map Prod.fst).foldl (fun s k => unsubscribe s k) st

/-- Guard at the top of subscribe: an already-active key is torn down
synchronously before anything of the new subscription is built. -/
def preStart (st : FwdState) (id : String) : FwdState :=
  if (lookupKey st.subs id).isSome then unsubscribe st id else st

/-- Registration of a freshly started resource for `id`:
`this.subs[id] = subscription` with the resource now running. -/
def addSub (st : FwdState) (id : String) : FwdState :=
  { subs := setKey st.subs id (Teardown.subscription st.nextRes)
    running := (st.nextRes, id) :: st.running
    nextRes := st.nextRes + 1
    torndown := st.torndown }

/-- The strategy-selection and stream-start portion of subscribe, after
the resubscribe guard. Configuration checks mirror the source exactly:
the custom branch throws when `createStream` is nullish (before `from` is
applied); createWebSocketStream throws on a falsy `sourceUrl`;
createPollingStream checks `pollInterval` first, then `sourceUrl`. On
success the started stream's subscription (for custom: the setup
subscription on `from(factory())`, stored because the promise cannot have
settled synchronously) is recorded under the key. An `Except.error`
result is the exception propagating synchronously out of `subscribe`. -/
def startPhase {TReq TIn TOut σ : Type} (st : FwdState) (id : String)
    (c : ForwarderConfig TReq TIn TOut σ) : FwdState × Except Err String :=
  match c.type with
  | SourceKind.custom =>
      match c.createStream with
      | none =>
          (st, Except.error ("[" ++ id ++ "] createStream is required for custom sources"))
      | some _ => (addSub st id, Except.ok id)
  | SourceKind.websocket =>
      if strTruthy c.sourceUrl then (addSub st id, Except.ok id)
      else (st, Except.error "sourceUrl is required for websocket sources")
  | SourceKind.poll =>
      if natTruthy c.pollInterval = false then
        (st, Except.error "Poll interval is required for polling sources")
      else if strTruthy c.sourceUrl = false then
        (st, Except.error "sourceUrl is required for polling")
      else (addSub st id, Except.ok id)

/-- subscribe from EventForwarder: tear down an existing subscription for
the key, then construct and start the configured strategy. The returned
`Except` is the synchronous outcome (the key, or a thrown configuration
error); the returned state reflects every mutation performed before the
throw. -/
def subscribe {TReq TIn TOut σ : Type} (st : FwdState) (id : String)
    (c : ForwarderConfig TReq TIn TOut σ) : FwdState × Except Err String :=
  startPhase (preStart st id) id c

/-- Asynchronous settlement of a custom subscription's factory promise,
delivered through the setup subscription stored at subscribe time (the
`next`/`error` handlers of `from(factory()).subscribe`). `setupRes` is
that setup subscription's resource; if it was already unsubscribed the
handlers never fire. Resolution to an Observable subscribes it and stores
the inner stream subscription; resolution to a function stores it as the
cleanup handle; rejection is only logged by the error handler (the setup
subscription closes, the record entry is left in place). The second
component lists the events the settled stream will deliver to the
pipeline. -/
def settleCustom {TIn : Type} (st : FwdState) (id : String) (setupRes : Nat)
    (outcome : FactoryOutcome TIn) : FwdState × List TIn :=
  if setupRes ∈ st.running.map Prod.fst then
    match outcome with
    | FactoryOutcome.rejects _ =>
        ({ subs := st.subs
           running := st.running.filter (fun p => p.1 ≠ setupRes)
           nextRes := st.nextRes
           torndown := st.torndown }, [])
    | FactoryOutcome.stream events =>
        ({ subs := setKey st.subs id (Teardown.subscription st.nextRes)
           running := (st.nextRes, id) :: st.running.filter (fun p => p.1 ≠ setupRes)
           nextRes := st.nextRes + 1
           torndown := st.torndown }, events)
    | FactoryOutcome.cleanupFn =>
        ({ subs := setKey st.subs id (Teardown.cleanupFn st.nextRes)
           running := (st.nextRes, id) :: st.running.filter (fun p => p.1 ≠ setupRes)
           nextRes := st.nextRes + 1
           torndown := st.torndown }, [])
  else (st, [])

/-- Well-formedness of a forwarder state: record keys are unique (a
JavaScript object), keys of running resources are unique, every running
resource is the one its record entry tears down, and resource ids are
below the fresh counter. -/
def WF (st : FwdState) : Prop :=
  (st.subs.map Prod.fst).Nodup ∧
  (st.running.map Prod.snd).Nodup ∧
  (∀ p ∈ st.running, (lookupKey st.subs p.2).map Teardown.resId = some p.1) ∧
  (∀ q ∈ st.subs, q.2.resId < st.nextRes)

/-- The claim's trigger condition: a required field is missing for the
configured kind (sourceAddress for Socket/Poll, pollInterval for Poll,
createStream for Custom). -/
def missingRequired {TReq TIn TOut σ : Type}
    (c : ForwarderConfig TReq TIn TOut σ) : Prop :=
  (c.type = SourceKind.websocket ∧ c.sourceUrl = none) ∨
  (c.type = SourceKind.poll ∧ (c.sourceUrl = none ∨ c.pollInterval = none)) ∨
  (c.type = SourceKind.custom ∧ c.createStream = none)

/-- defaultFetch from EventForwarder, after the request has been issued:
`resp` is the transport outcome (network error, or status plus parsed
body). A non-ok status throws an error naming the status and the request
path; an ok response is parsed and passed through validateInput. The
message text is abbreviated to status and url. -/
def defaultFetch (url : String) (resp : Except Err (Nat × Json)) : Except Err Json :=
  match resp with
  | Except.error e => Except.error e
  | Except.ok (status, body) =>
      if statusOk status then validateInput body
      else Except.error (toString status ++ ": " ++ url)

/-- Outcome of one interval tick of createPollingStream: the async
callback returns early on a false gate, calls `subscriber.next` with the
fetched value, or lands in the catch and calls `subscriber.error`. -/
inductive TickResult : Type
  | skipped
  | emitted (v : Json)
  | errored (e : Err)
  deriving DecidableEq, Repr

/-- One tick of createPollingStream's interval callback: evaluate the
shared gate (a gate exception is caught by the tick's try/catch and
becomes `subscriber.error`), re-check `sourceUrl`, run the fetch
(`customFetch || defaultFetch`; the per-tick transport outcome is
`resp`), and emit the result; any failure errors the subscriber. -/
def pollTick {TReq TOut σ : Type} (c : ForwarderConfig TReq Json TOut σ)
    (resp : Except Err (Nat × Json)) (s : σ) : TickResult × σ :=
  match shouldProcessEvent c s with
  | (Except.error e, s2) => (TickResult.errored e, s2)
  | (Except.ok false, s2) => (TickResult.skipped, s2)
  | (Except.ok true, s2) =>
      if strTruthy c.sourceUrl = false then
        (TickResult.errored "sourceUrl is required for polling", s2)
      else
        match defaultFetch (c.sourceUrl.getD "") resp with
        | Except.error e => (TickResult.errored e, s2)
        | Except.ok v => (TickResult.emitted v, s2)

/-- Run of the polling Observable across scheduled interval ticks,
starting at tick index `i` with `n` ticks remaining. `subscriber.error`
terminates the Observable: its teardown unsubscribes the interval, so no
later tick runs — the trace ends at the first errored tick. `resp` gives
each tick's fetch transport outcome. -/
def runPollFrom {TReq TOut σ : Type} (c : ForwarderConfig TReq Json TOut σ)
    (resp : Nat → Except Err (Nat × Json)) :
    Nat → Nat → σ → List (Nat × TickResult) × σ
  | _, 0, s => ([], s)
  | i, n + 1, s =>
      match pollTick c (resp i) s with
      | (TickResult.errored e, s2) => ([(i, TickResult.errored e)], s2)
      | (r, s2) =>
          let rest := runPollFrom c resp (i + 1) n s2
          ((i, r) :: rest.1, rest.2)

/-- Run of the polling Observable over the first `n` scheduled ticks. -/
def runPoll {TReq TOut σ : Type} (c : ForwarderConfig TReq Json TOut σ)
    (resp : Nat → Except Err (Nat × Json)) (n : Nat) (s : σ) :
    List (Nat × TickResult) × σ :=
  runPollFrom c resp 0 n s

/-- Per-tick outcome of a whole poll subscription (polling stream wired
into the per-event pipeline by subscribe). -/
inductive SubOutcome (TOut : Type) : Type
  | tickSkipped
  | forwarded (p : TOut)
  | pipelineSkipped
  | pipelineError (e : Err)
  | streamError (e : Err)
  deriving DecidableEq, Repr

/-- One scheduled tick of a poll subscription: the polling tick runs
first (evaluating the gate before the fetch); a delivered event then runs
through the per-event pipeline, which evaluates the same gate again with
the same threaded closure state. A tick-level error reaches the stream
subscription's error handler. -/
def subTick {TReq TOut σ : Type} (idCast : Json → TOut)
    (c : ForwarderConfig TReq Json TOut σ) (resp : Except Err (Nat × Json))
    (wh : Except Err Nat) (s : σ) : SubOutcome TOut × σ :=
  match pollTick c resp s with
  | (TickResult.skipped, s2) => (SubOutcome.tickSkipped, s2)
  | (TickResult.errored e, s2) => (SubOutcome.streamError e, s2)
  | (TickResult.emitted v, s2) =>
      match processEvent idCast c s2 v wh with
      | (PipelineOutcome.forwarded p, s3) => (SubOutcome.forwarded p, s3)
      | (PipelineOutcome.skipped, s3) => (SubOutcome.pipelineSkipped, s3)
      | (PipelineOutcome.errorLogged e, s3) => (SubOutcome.pipelineError e, s3)

/-- Run of a poll subscription over scheduled ticks from index `i`: a
stream error ends the trace (the errored polling Observable tears down
its interval). -/
def runPollSub {TReq TOut σ : Type} (idCast : Json → TOut)
    (c : ForwarderConfig TReq Json TOut σ)
    (resp : Nat → Except Err (Nat × Json)) (wh : Nat → Except Err Nat) :
    Nat → Nat → σ → List (Nat × SubOutcome TOut) × σ
  | _, 0, s => ([], s)
  | i, n + 1, s =>
      match subTick idCast c (resp i) (wh i) s with
      | (SubOutcome.streamError e, s2) => ([(i, SubOutcome.streamError e)], s2)
      | (o, s2) =>
          let rest := runPollSub idCast c resp wh (i + 1) n s2
          ((i, o) :: rest.1, rest.2)

/-- An inbound websocket text frame, described by its JSON.parse outcome:
either the text is unparsable or it parses to a JSON value. -/
inductive RawFrame : Type
  | unparsable (e : Err)
  | parsed (j : Json)
  deriving DecidableEq, Repr

/-- The deserializer of createWebSocketStream:
`validateInput(JSON.parse(msg.data))`; a failure is logged and
rethrown. -/
def deserializeFrame (f : RawFrame) : Except Err Json :=
  match f with
  | RawFrame.unparsable e => Except.error e
  | RawFrame.parsed j => validateInput j

/-- How a socket connection ends once its queued frames are processed:
a transport error/close, or no further activity in the observed window. -/
inductive ConnEnd : Type
  | fails (e : Err)
  | staysOpen
  deriving DecidableEq, Repr

/-- Behaviour of one connection attempt: the frames the socket delivers
in order, and how the connection then ends. -/
structure ConnAttempt : Type where
  frames : List RawFrame
  ending : ConnEnd
  deriving DecidableEq, Repr

/-- Frame delivery by the rxjs WebSocketSubject: per frame,
`try { observer.next(deserializer(e)) } catch (err) { observer.error(err) }` —
a deserializer failure errors the subject, so the remaining frames of the
connection are never delivered. The result is the values delivered and
the subject's terminal error, if any. -/
def runConnection : List RawFrame → ConnEnd → List Json × Option Err
  | [], ending =>
      ([], match ending with
           | ConnEnd.fails e => some e
           | ConnEnd.staysOpen => none)
  | f :: rest, ending =>
      match deserializeFrame f with
      | Except.error e => ([], some e)
      | Except.ok v =>
          let r := runConnection rest ending
          (v :: r.1, r.2)

/-- Behaviour of a retry delay notifier observable: it either emits a
next value after some delay, or completes after some delay without ever
emitting. -/
inductive NotifierSignal : Type
  | emitsAfter (ms : Nat)
  | completesAfter (ms : Nat)
  deriving DecidableEq, Repr

/-- The delay notifier built in createWebSocketStream's retry config:
`new Observable((subscriber) => { setTimeout(() => subscriber.complete(), 5000); })`
— it logs the attempt, schedules only `complete()` after 5000 ms, and
never emits a value. -/
def socketRetryNotifier (_e : Err) (_retryCount : Nat) : NotifierSignal :=
  NotifierSignal.completesAfter 5000

/-- Terminal signal of a finite stream run. `live` means the stream had
not terminated within the observed window. -/
inductive StreamEnd : Type
  | completed
  | erroredOut (e : Err)
  | live
  deriving DecidableEq, Repr

/-- Semantics of the rxjs `retry({ delay, count })` operator (rxjs 7): on
a source error while fewer than `count` retries have happened, the
operator subscribes the notifier returned by `delay(err, soFar + 1)`; if
the notifier emits, the source is resubscribed; if the notifier completes
without emitting, the output completes; once `count` retries are
exhausted the error is forwarded. (The preceding catchError in
createWebSocketStream logs and rethrows, leaving the error unchanged.)
`attempts` gives the behaviour of each successive connection attempt.
Result: values delivered, terminal signal, number of connection attempts
made, total milliseconds spent in retry delays. `fuel` bounds the
recursion; any fuel exceeding `count` is enough, since each resubscribe
consumes one of the `count` allowed retries. -/
def runRetry (delayFn : Err → Nat → NotifierSignal) (count : Nat)
    (attempts : Nat → ConnAttempt) :
    Nat → Nat → List Json × StreamEnd × Nat × Nat
  | 0, _ => ([], StreamEnd.live, 0, 0)
  | fuel + 1, soFar =>
      let a := attempts soFar
      match runConnection a.frames a.ending with
      | (vals, none) => (vals, StreamEnd.live, 1, 0)
      | (vals, some e) =>
          if soFar < count then
            match delayFn e (soFar + 1) with
            | NotifierSignal.completesAfter d => (vals, StreamEnd.completed, 1, d)
            | NotifierSignal.emitsAfter d =>
                let r := runRetry delayFn count attempts fuel (soFar + 1)
                (vals ++ r.1, r.2.1, r.2.2.1 + 1, d + r.2.2.2)
          else (vals, StreamEnd.erroredOut e, 1, 0)

/-- createWebSocketStream's composed pipe:
`ws.pipe(catchError(rethrow), retry({ delay: 5s-complete-only notifier, count: 3 }))`,
run against the given family of connection-attempt behaviours. -/
def createWebSocketStreamRun (attempts : Nat → ConnAttempt) :
    List Json × StreamEnd × Nat × Nat :=
  runRetry socketRetryNotifier 3 attempts 4 0

/-
Concrete instances used to evaluate the model on explicit inputs.
-/

/-- A freshly constructed forwarder (`new EventForwarder()`). -/
def emptyState : FwdState := {}

/-- A forwarder with one active subscription under key "k". -/
def oneSubState : FwdState :=
  { subs := [("k", Teardown.subscription 0)]
    running := [(0, "k")]
    nextRes := 1
    torndown := [] }

/-- A well-formed polling configuration without a gate. -/
def pollCfg : ForwarderConfig String Json Json Unit :=
  { type := SourceKind.poll
    sourceUrl := some "http://host/poll"
    webhookUrl := "http://host/webhook"
    pollInterval := some 1000 }

/-- A polling configuration missing its pollInterval. -/
def pollCfgNoInterval : ForwarderConfig String String String Unit :=
  { type := SourceKind.poll
    sourceUrl := some "http://host/poll"
    webhookUrl := "http://host/webhook" }

/-- Transport oracle whose tick 0 fetch gets a 500 response and whose
later ticks get a 200 response with a valid body. -/
def pollRespFail0 (i : Nat) : Except Err (Nat × Json) :=
  if i = 0 then Except.ok (500, Json.str "oops") else Except.ok (200, Json.str "data")

/-- Transport oracle whose tick 0 fetch succeeds and whose later ticks
get a 500 response. -/
def pollRespFail1 (i : Nat) : Except Err (Nat × Json) :=
  if i = 0 then Except.ok (200, Json.str "data") else Except.ok (500, Json.str "oops")

/-- A custom configuration whose factory promise rejects. -/
def customRejectCfg : ForwarderConfig String Json Json Unit :=
  { type := SourceKind.custom
    webhookUrl := "http://host/webhook"
    createStream := some (FactoryOutcome.rejects "factory failed") }

/-- The stateful gate of the conditional-processing test: true exactly on
its first invocation, threading its call count as closure state. -/
def firstCallGate : Gate String Nat :=
  fun n _ => (Except.ok (decide (n = 0)), n + 1)

/-- Poll configuration carrying the first-call-only gate. -/
def firstGateCfg : ForwarderConfig String Json Json Nat :=
  { type := SourceKind.poll
    sourceUrl := some "http://host/poll"
    webhookUrl := "http://host/webhook"
    pollInterval := some 1000
    shouldFetch := some firstCallGate }

/-- An always-true stateless gate. -/
def alwaysTrueGate : Gate String Unit := fun s _ => (Except.ok true, s)

/-- Poll configuration with an always-true gate (used to exhibit a
forwarded event). -/
def alwaysGateCfg : ForwarderConfig String Json Json Unit :=
  { type := SourceKind.poll
    sourceUrl := some "http://host/poll"
    webhookUrl := "http://host/webhook"
    pollInterval := some 1000
    shouldFetch := some alwaysTrueGate }

/-- An always-false stateless gate. -/
def alwaysFalseGate : Gate String Unit := fun s _ => (Except.ok false, s)

/-- Configuration whose gate reads the request body as its context and
whose request template carries a body. -/
def gateCtxCfg : ForwarderConfig String String String Unit :=
  { type := SourceKind.custom
    webhookUrl := "http://host/webhook"
    requestConfig := some { body := some "pending-request-body" }
    shouldFetch := some alwaysFalseGate
    createStream := some (FactoryOutcome.stream ["evt"]) }

/-- Configuration whose transform throws on every event. -/
def throwingTransformCfg : ForwarderConfig String String String Unit :=
  { type := SourceKind.custom
    webhookUrl := "http://host/webhook"
    transform := some (fun _ => Except.error "transform boom")
    createStream := some (FactoryOutcome.stream ["evt"]) }

/-- A socket whose every connection attempt fails immediately. -/
def failingSocket : Nat → ConnAttempt :=
  fun _ => { frames := [], ending := ConnEnd.fails "connection refused" }

/-- A delay notifier that emits after its delay (what a `timer(5000)`
delay would do) — used to contrast the source's complete-only notifier
with the retry behaviour the code's own log message describes. -/
def emittingNotifier (_e : Err) (_retryCount : Nat) : NotifierSignal :=
  NotifierSignal.emitsAfter 5000

/-
Auxiliary lemmas about the registry's association-list operations.
-/

theorem lookupKey_eq_none_of_not_mem (l : List (String × Teardown)) (k : String)
    (h : k ∉ l.map Prod.fst) : lookupKey l k = none := by
  induction l with
  | nil => rfl
  | cons q rest ih =>
      simp only [List.map_cons, List.mem_cons] at h
      push_neg at h
      simp only [lookupKey]
      rw [if_neg (fun hk => h.1 hk.symm)]
      exact ih h.2

theorem lookupKey_some_mem (l : List (String × Teardown)) (k : String) (t : Teardown)
    (h : lookupKey l k = some t) : (k, t) ∈ l := by
  induction l with
  | nil => simp [lookupKey] at h
  | cons q rest ih =>
      simp only [lookupKey] at h
      by_cases hk : q.1 = k
      · rw [if_pos hk] at h
        obtain ⟨k1, t1⟩ := q
        cases h
        cases hk
        exact List.mem_cons_self _ _
      · rw [if_neg hk] at h
        exact List.mem_cons_of_mem _ (ih h)

theorem lookupKey_eraseKey_self (l : List (String × Teardown)) (k : String)
    (hnd : (l.map Prod.fst).Nodup) : lookupKey (eraseKey l k) k = none := by
  induction l with
  | nil => rfl
  | cons q rest ih =>
      simp only [List.map_cons, List.nodup_cons] at hnd
      by_cases hk : q.1 = k
      · simp only [eraseKey, if_pos hk]
        apply lookupKey_eq_none_of_not_mem
        rw [← hk]
        exact hnd.1
      · simp only [eraseKey, if_neg hk, lookupKey, if_neg hk]
        exact ih hnd.2

theorem lookupKey_setKey_self (l : List (String × Teardown)) (k : String) (t : Teardown) :
    lookupKey (setKey l k t) k = some t := by
  induction l with
  | nil => simp [setKey, lookupKey]
  | cons q rest ih =>
      by_cases hk : q.1 = k
      · simp [setKey, if_pos hk, lookupKey]
      · simp only [setKey, if_neg hk, lookupKey, if_neg hk]
        exact ih

theorem preStart_nextRes (st : FwdState) (id : String) :
    (preStart st id).nextRes = st.nextRes := by
  unfold preStart unsubscribe
  cases h : lookupKey st.subs id <;> simp [h]

theorem preStart_running_sub (st : FwdState) (id : String) :
    ∀ p ∈ (preStart st id).running, p ∈ st.running := by
  unfold preStart unsubscribe
  cases h : lookupKey st.subs id <;> simp [h]
  intro a b hab _
  exact hab

theorem preStart_lookup_none (st : FwdState) (id : String)
    (hnd : (st.subs.map Prod.fst).Nodup) :
    lookupKey (preStart st id).subs id = none := by
  unfold preStart unsubscribe
  cases h : lookupKey st.subs id with
  | none => simp [h]
  | some td => simpa [h] using lookupKey_eraseKey_self st.subs id hnd

theorem startPhase_missing {TReq TIn TOut σ : Type} (st : FwdState) (id : String)
    (c : ForwarderConfig TReq TIn TOut σ) (hm : missingRequired c) :
    ∃ e, startPhase st id c = (st, Except.error e) := by
  rcases hm with ⟨ht, hs⟩ | ⟨ht, hs | hp⟩ | ⟨ht, hc⟩
  · refine ⟨"sourceUrl is required for websocket sources", ?_⟩
    unfold startPhase
    rw [ht, hs]
    simp [strTruthy]
  · unfold startPhase
    rw [ht, hs]
    by_cases hp : natTruthy c.pollInterval
    · refine ⟨"sourceUrl is required for polling", ?_⟩
      simp [hp, strTruthy]
    · refine ⟨"Poll interval is required for polling sources", ?_⟩
      simp only [Bool.not_eq_true] at hp
      simp [hp]
  · refine ⟨"Poll interval is required for polling sources", ?_⟩
    unfold startPhase
    rw [ht, hp]
    simp [natTruthy]
  · refine ⟨"[" ++ id ++ "] createStream is required for custom sources", ?_⟩
    unfold startPhase
    rw [ht, hc]

/-- C2: for every kind, `subscribe` with a missing required field
(sourceAddress for Socket/Poll, pollInterval for Poll, createStream for
Custom) raises a configuration error synchronously — the `Except.error`
result is the exception escaping `subscribe` — and afterwards the
registry holds no entry for that key, no new resource id was allocated,
and every still-running resource was already running before the call. -/
theorem subscribe_missing_field_rejects {TReq TIn TOut σ : Type} (st : FwdState)
    (id : String) (c : ForwarderConfig TReq TIn TOut σ)
    (hnd : (st.subs.map Prod.fst).Nodup) (hm : missingRequired c) :
    (∃ e, (subscribe st id c).2 = Except.error e) ∧
    lookupKey (subscribe st id c).1.subs id = none ∧
    (subscribe st id c).1.nextRes = st.nextRes ∧
    ∀ p ∈ (subscribe st id c).1.running, p ∈ st.running := by
  obtain ⟨e, he⟩ := startPhase_missing (preStart st id) id c hm
  unfold subscribe
  rw [he]
  exact ⟨⟨e, rfl⟩, preStart_lookup_none st id hnd, preStart_nextRes st id,
    preStart_running_sub st id⟩

/-- C2 witness: a Poll configuration missing its pollInterval, against a
registry that already holds an unrelated active key. -/
theorem subscribe_missing_field_rejects_witness :
    (((oneSubState.subs.map Prod.fst).Nodup ∧ missingRequired pollCfgNoInterval)) ∧
    ((∃ e, (subscribe oneSubState "p" pollCfgNoInterval).2 = Except.error e) ∧
     lookupKey (subscribe oneSubState "p" pollCfgNoInterval).1.subs "p" = none ∧
     (subscribe oneSubState "p" pollCfgNoInterval).1.nextRes = oneSubState.nextRes ∧
     ∀ p ∈ (subscribe oneSubState "p" pollCfgNoInterval).1.running, p ∈ oneSubState.running) :=
  ⟨⟨by decide, Or.inr (Or.inl ⟨rfl, Or.inr rfl⟩)⟩,
   subscribe_missing_field_rejects oneSubState "p" pollCfgNoInterval (by decide)
     (Or.inr (Or.inl ⟨rfl, Or.inr rfl⟩))⟩

theorem preStart_active (st : FwdState) (id : String) (td : Teardown)
    (h : lookupKey st.subs id = some td) :
    preStart st id = unsubscribe st id := by
  unfold preStart
  simp [h]

theorem startPhase_shape {TReq TIn TOut σ : Type} (st : FwdState) (id : String)
    (c : ForwarderConfig TReq TIn TOut σ) :
    startPhase st id c = (addSub st id, Except.ok id) ∨
    ∃ e, startPhase st id c = (st, Except.error e) := by
  unfold startPhase
  cases htype : c.type with
  | custom =>
      cases hcs : c.createStream with
      | none => exact Or.inr ⟨_, rfl⟩
      | some f => exact Or.inl rfl
  | websocket =>
      by_cases hs : strTruthy c.sourceUrl
      · exact Or.inl (by simp [hs])
      · refine Or.inr ⟨"sourceUrl is required for websocket sources", ?_⟩
        simp only [Bool.not_eq_true] at hs
        simp [hs]
  | poll =>
      by_cases hp : natTruthy c.pollInterval
      · by_cases hs : strTruthy c.sourceUrl
        · exact Or.inl (by simp [hp, hs])
        · refine Or.inr ⟨"sourceUrl is required for polling", ?_⟩
          simp only [Bool.not_eq_true] at hs
          simp [hp, hs]
      · refine Or.inr ⟨"Poll interval is required for polling sources", ?_⟩
        simp only [Bool.not_eq_true] at hp
        simp [hp]

/-- C3: for an already-active key, subscribe's definition factors as the
synchronous teardown of the existing subscription (`preStart`) followed
by the start of the new one; in the intermediate state no resource for
the key is running and the old resource is stopped, and in the final
state the old resource is still stopped and at most one resource runs
per key — so at no time do two resources for the same key run
concurrently. -/
theorem resubscribe_teardown_before_start {TReq TIn TOut σ : Type} (st : FwdState)
    (id : String) (c : ForwarderConfig TReq TIn TOut σ) (td : Teardown)
    (hact : lookupKey st.subs id = some td) (hwf : WF st) :
    subscribe st id c = startPhase (preStart st id) id c ∧
    (∀ p ∈ (preStart st id).running, p.2 ≠ id) ∧
    td.resId ∉ ((preStart st id).running.map Prod.fst) ∧
    ((preStart st id).running.map Prod.snd).Nodup ∧
    td.resId ∉ ((subscribe st id c).1.running.map Prod.fst) ∧
    ((subscribe st id c).1.running.map Prod.snd).Nodup := by
  obtain ⟨hnd, hrnd, hcoh, hbound⟩ := hwf
  have hpre : preStart st id = unsubscribe st id := preStart_active st id td hact
  have hrun : (preStart st id).running = st.running.filter (fun p => p.1 ≠ td.resId) := by
    rw [hpre]
    unfold unsubscribe
    rw [hact]
  have hkey : ∀ p ∈ (preStart st id).running, p.2 ≠ id := by
    intro p hp hpid
    rw [hrun] at hp
    rw [List.mem_filter] at hp
    obtain ⟨hmem, hne⟩ := hp
    have hc := hcoh p hmem
    rw [hpid, hact] at hc
    simp only [Option.map_some', Option.some.injEq] at hc
    simp only [decide_eq_true_eq] at hne
    exact hne hc.symm
  have hold : td.resId ∉ ((preStart st id).running.map Prod.fst) := by
    rw [hrun]
    intro hmem
    rw [List.mem_map] at hmem
    obtain ⟨p, hp, hfst⟩ := hmem
    rw [List.mem_filter] at hp
    simp only [decide_eq_true_eq] at hp
    exact hp.2 hfst
  have hsubl : (preStart st id).running.Sublist st.running := by
    rw [hrun]
    exact List.filter_sublist st.running
  have hnd2 : ((preStart st id).running.map Prod.snd).Nodup :=
    (hsubl.map Prod.snd).nodup hrnd
  refine ⟨rfl, hkey, hold, hnd2, ?_, ?_⟩
  · rcases startPhase_shape (preStart st id) id c with hsp | ⟨e, hsp⟩
    · unfold subscribe
      rw [hsp]
      unfold addSub
      simp only [List.map_cons, List.mem_cons]
      intro hmem
      rcases hmem with heq | hmem
      · have hlt : td.resId < st.nextRes :=
          hbound (id, td) (lookupKey_some_mem st.subs id td hact)
        rw [preStart_nextRes] at heq
        omega
      · exact hold hmem
    · unfold subscribe
      rw [hsp]
      exact hold
  · rcases startPhase_shape (preStart st id) id c with hsp | ⟨e, hsp⟩
    · unfold subscribe
      rw [hsp]
      unfold addSub
      simp only [List.map_cons, List.nodup_cons]
      constructor
      · intro hmem
        rw [List.mem_map] at hmem
        obtain ⟨p, hp, hsnd⟩ := hmem
        exact hkey p hp hsnd
      · exact hnd2
    · unfold subscribe
      rw [hsp]
      exact hnd2

/-- C3 witness: resubscribing key "k" (active with resource 0) with a
valid polling configuration. -/
theorem resubscribe_teardown_before_start_witness :
    (lookupKey oneSubState.subs "k" = some (Teardown.subscription 0) ∧ WF oneSubState) ∧
    (subscribe oneSubState "k" pollCfg = startPhase (preStart oneSubState "k") "k" pollCfg ∧
     (∀ p ∈ (preStart oneSubState "k").running, p.2 ≠ "k") ∧
     (Teardown.subscription 0).resId ∉ ((preStart oneSubState "k").running.map Prod.fst) ∧
     ((preStart oneSubState "k").running.map Prod.snd).Nodup ∧
     (Teardown.subscription 0).resId ∉ ((subscribe oneSubState "k" pollCfg).1.running.map Prod.fst) ∧
     ((subscribe oneSubState "k" pollCfg).1.running.map Prod.snd).Nodup) :=
  ⟨⟨by decide, ⟨by decide, by decide, by decide, by decide⟩⟩,
   resubscribe_teardown_before_start oneSubState "k" pollCfg (Teardown.subscription 0)
     (by decide) ⟨by decide, by decide, by decide, by decide⟩⟩

theorem unsubscribe_torndown_mono (st : FwdState) (id : String) (x : Nat)
    (hx : x ∈ st.torndown) : x ∈ (unsubscribe st id).torndown := by
  unfold unsubscribe
  cases h : lookupKey st.subs id with
  | none => exact hx
  | some td => exact List.mem_cons_of_mem _ hx

theorem foldl_unsubscribe_torndown_mono (ks : List String) (st : FwdState) (x : Nat)
    (hx : x ∈ st.torndown) :
    x ∈ (ks.foldl (fun s k => unsubscribe s k) st).torndown := by
  induction ks generalizing st with
  | nil => exact hx
  | cons k ks ih =>
      exact ih (unsubscribe st k) (unsubscribe_torndown_mono st k x hx)

theorem foldl_unsubscribe_keys (ks : List String) (st : FwdState)
    (hks : st.subs.map Prod.fst = ks) (hnd : ks.Nodup) :
    (ks.foldl (fun s k => unsubscribe s k) st).subs = [] ∧
    ∀ q ∈ st.subs, q.2.resId ∈ (ks.foldl (fun s k => unsubscribe s k) st).torndown := by
  induction ks generalizing st with
  | nil =>
      rw [List.map_eq_nil_iff] at hks
      simp [hks]
  | cons k ks ih =>
      match hsubs : st.subs with
      | [] => rw [hsubs] at hks; simp at hks
      | (k0, t0) :: rest =>
          rw [hsubs] at hks
          simp only [List.map_cons, List.cons.injEq] at hks
          obtain ⟨hk0, hrest⟩ := hks
          have hlk : lookupKey st.subs k = some t0 := by
            rw [hsubs, hk0]
            simp [lookupKey]
          have hunf : unsubscribe st k =
              { subs := eraseKey st.subs k
                running := st.running.filter (fun p => p.1 ≠ t0.resId)
                nextRes := st.nextRes
                torndown := t0.resId :: st.torndown } := by
            unfold unsubscribe
            rw [hlk]
          have herase : eraseKey st.subs k = rest := by
            rw [hsubs, hk0]
            simp [eraseKey]
          have hsubs2 : (unsubscribe st k).subs = rest := by rw [hunf, herase]
          have hnd2 : ks.Nodup := hnd.of_cons
          have ihres := ih (unsubscribe st k) (by rw [hsubs2, hrest]) hnd2
          simp only [List.foldl_cons]
          refine ⟨ihres.1, ?_⟩
          intro q hq
          rcases List.mem_cons.mp hq with hq0 | hqr
          · subst hq0
            apply foldl_unsubscribe_torndown_mono
            rw [hunf]
            exact List.mem_cons_self _ _
          · exact ihres.2 q (by rw [hsubs2]; exact hqr)

/-- C9: unsubscribeAll invokes the recorded teardown of every currently
active subscription and leaves the registry empty; applying it again to
the result is a no-op (the state, including the teardown trace, is
unchanged — in particular no teardown runs and nothing can raise), and
on an already-empty registry it is likewise the identity. -/
theorem unsubscribeAll_empties_and_idempotent (st : FwdState)
    (hnd : (st.subs.map Prod.fst).Nodup) :
    (unsubscribeAll st).subs = [] ∧
    (∀ q ∈ st.subs, q.2.resId ∈ (unsubscribeAll st).torndown) ∧
    unsubscribeAll (unsubscribeAll st) = unsubscribeAll st := by
  have h := foldl_unsubscribe_keys (st.subs.map Prod.fst) st rfl hnd
  refine ⟨h.1, h.2, ?_⟩
  show unsubscribeAll (unsubscribeAll st) = unsubscribeAll st
  unfold unsubscribeAll
  have h1 : (unsubscribeAll st).subs = [] := h.1
  unfold unsubscribeAll at h1
  rw [h1]
  rfl

/-- C9 witness: a forwarder holding one active subscription. -/
theorem unsubscribeAll_empties_and_idempotent_witness :
    (oneSubState.subs.map Prod.fst).Nodup ∧
    ((unsubscribeAll oneSubState).subs = [] ∧
     (∀ q ∈ oneSubState.subs, q.2.resId ∈ (unsubscribeAll oneSubState).torndown) ∧
     unsubscribeAll (unsubscribeAll oneSubState) = unsubscribeAll oneSubState) :=
  ⟨by decide, unsubscribeAll_empties_and_idempotent oneSubState (by decide)⟩

theorem runPipeline_append {TReq TIn TOut σ : Type} (idCast : TIn → TOut)
    (c : ForwarderConfig TReq TIn TOut σ) :
    ∀ (evs evs' : List (TIn × Except Err Nat)) (s : σ),
    runPipeline idCast c s (evs ++ evs') =
      ((runPipeline idCast c s evs).1 ++
         (runPipeline idCast c (runPipeline idCast c s evs).2 evs').1,
       (runPipeline idCast c (runPipeline idCast c s evs).2 evs').2) := by
  intro evs
  induction evs with
  | nil => intro evs' s; rfl
  | cons ev rest ih =>
      intro evs' s
      obtain ⟨d, wh⟩ := ev
      simp only [List.cons_append, runPipeline, List.append_eq]
      rw [ih]

theorem runPipeline_length {TReq TIn TOut σ : Type} (idCast : TIn → TOut)
    (c : ForwarderConfig TReq TIn TOut σ) :
    ∀ (evs : List (TIn × Except Err Nat)) (s : σ),
    (runPipeline idCast c s evs).1.length = evs.length := by
  intro evs
  induction evs with
  | nil => intro s; rfl
  | cons ev rest ih =>
      intro s
      obtain ⟨d, wh⟩ := ev
      simp only [runPipeline, List.length_cons]
      rw [ih]

/-- C4: an error raised anywhere inside one event's pipeline run (gate,
transform, or webhook forward — any `Except.error` escaping the
try-block `pipelineBody`) is caught by the handler and recorded as a
logged per-event outcome, and stream processing is unaffected: the
handler produces exactly one outcome per delivered event, and the
outcomes of later events are computed independently of any earlier
event's failure (delivery decomposes over concatenation, so after any
erroring prefix the remaining events are still processed). The handler
never touches the registry, so no subscription is removed. -/
theorem pipeline_error_isolated {TReq TIn TOut σ : Type} (idCast : TIn → TOut)
    (c : ForwarderConfig TReq TIn TOut σ) (s s2 : σ)
    (evs evs' : List (TIn × Except Err Nat)) (d : TIn) (wh : Except Err Nat) (e : Err) :
    (runPipeline idCast c s (evs ++ evs')).1 =
      (runPipeline idCast c s evs).1 ++
        (runPipeline idCast c (runPipeline idCast c s evs).2 evs').1 ∧
    (runPipeline idCast c s evs).1.length = evs.length ∧
    (pipelineBody idCast c s d wh = (Except.error e, s2) →
      processEvent idCast c s d wh = (PipelineOutcome.errorLogged e, s2)) := by
  refine ⟨?_, runPipeline_length idCast c evs s, ?_⟩
  · rw [runPipeline_append idCast c evs evs' s]
  · intro hb
    unfold processEvent
    rw [hb]

/-- C4 witness: a two-event delivery where the first event's transform
throws; the outcome trace still has one entry per event and the second
event is processed. -/
theorem pipeline_error_isolated_witness :
    pipelineBody (fun s => s) throwingTransformCfg () "bad" (Except.ok 200)
        = (Except.error "transform boom", ()) ∧
    ((runPipeline (fun s => s) throwingTransformCfg ()
        ([("bad", Except.ok 200)] ++ [("later", Except.ok 200)])).1 =
      (runPipeline (fun s => s) throwingTransformCfg () [("bad", Except.ok 200)]).1 ++
        (runPipeline (fun s => s) throwingTransformCfg
          (runPipeline (fun s => s) throwingTransformCfg () [("bad", Except.ok 200)]).2
          [("later", Except.ok 200)]).1 ∧
     (runPipeline (fun s => s) throwingTransformCfg () [("bad", Except.ok 200)]).1.length = 1 ∧
     processEvent (fun s => s) throwingTransformCfg () "bad" (Except.ok 200)
       = (PipelineOutcome.errorLogged "transform boom", ())) := by
  have h := pipeline_error_isolated (fun s : String => s) throwingTransformCfg () ()
    [("bad", Except.ok 200)] [("later", Except.ok 200)] "bad" (Except.ok 200) "transform boom"
  exact ⟨rfl, h.1, h.2.1, h.2.2 rfl⟩

/-- C8: when a gate is configured, shouldProcessEvent invokes it with the
resolved `requestTemplate.body` as context — the arriving event is not
even an argument of the gate stage — and a false verdict makes the
per-event handler drop the event with the skipped outcome: no forward
and no error, for every event value. -/
theorem gate_receives_request_body {TReq TIn TOut σ : Type} (idCast : TIn → TOut)
    (c : ForwarderConfig TReq TIn TOut σ) (g : Gate TReq σ) (s s2 : σ)
    (data : TIn) (wh : Except Err Nat)
    (hg : c.shouldFetch = some g) :
    shouldProcessEvent c s = g s (resolveBody c) ∧
    (g s (resolveBody c) = (Except.ok false, s2) →
      processEvent idCast c s data wh = (PipelineOutcome.skipped, s2)) := by
  have hsp : shouldProcessEvent c s = g s (resolveBody c) := by
    unfold shouldProcessEvent
    rw [hg]
  refine ⟨hsp, ?_⟩
  intro hfalse
  unfold processEvent pipelineBody
  rw [hsp, hfalse]

/-- C8 witness: a config whose request template carries a body and whose
gate always answers false; the event value is irrelevant and the event
is dropped without forward or error. -/
theorem gate_receives_request_body_witness :
    gateCtxCfg.shouldFetch = some alwaysFalseGate ∧
    (shouldProcessEvent gateCtxCfg () = alwaysFalseGate () (resolveBody gateCtxCfg) ∧
     resolveBody gateCtxCfg = some "pending-request-body" ∧
     processEvent (fun s => s) gateCtxCfg () "arriving event" (Except.ok 200)
       = (PipelineOutcome.skipped, ())) := by
  have h := gate_receives_request_body (fun s : String => s) gateCtxCfg alwaysFalseGate
    () () "arriving event" (Except.ok 200) rfl
  exact ⟨rfl, h.1, rfl, h.2 rfl⟩

theorem runPollFrom_mem_ge {TReq TOut σ : Type} (c : ForwarderConfig TReq Json TOut σ)
    (resp : Nat → Except Err (Nat × Json)) :
    ∀ (n i : Nat) (s : σ) (j : Nat) (r : TickResult),
    (j, r) ∈ (runPollFrom c resp i n s).1 → i ≤ j := by
  intro n
  induction n with
  | zero => intro i s j r h; simp [runPollFrom] at h
  | succ n ih =>
      intro i s j r h
      unfold runPollFrom at h
      match ht : pollTick c (resp i) s with
      | (TickResult.errored e, s2) =>
          rw [ht] at h
          simp only [List.mem_singleton, Prod.mk.injEq] at h
          omega
      | (TickResult.skipped, s2) =>
          rw [ht] at h
          rcases List.mem_cons.mp h with h0 | hrest
          · cases h0; omega
          · have := ih (i + 1) s2 j r hrest
            omega
      | (TickResult.emitted v, s2) =>
          rw [ht] at h
          rcases List.mem_cons.mp h with h0 | hrest
          · cases h0; omega
          · have := ih (i + 1) s2 j r hrest
            omega

/-- C1 amended, general form: in a polling stream's trace, an errored
tick is always the last entry — `subscriber.error` terminates the
Observable, whose teardown cancels the interval, so no tick after the
first fetch failure runs at all. -/
theorem poll_error_terminates_stream {TReq TOut σ : Type}
    (c : ForwarderConfig TReq Json TOut σ) (resp : Nat → Except Err (Nat × Json))
    (n i j : Nat) (e : Err) (r : TickResult) (s : σ)
    (hi : (i, TickResult.errored e) ∈ (runPoll c resp n s).1)
    (hj : (j, r) ∈ (runPoll c resp n s).1) : j ≤ i := by
  unfold runPoll at hi hj
  suffices h : ∀ (n i0 : Nat) (s : σ),
      (i, TickResult.errored e) ∈ (runPollFrom c resp i0 n s).1 →
      (j, r) ∈ (runPollFrom c resp i0 n s).1 → j ≤ i by
    exact h n 0 s hi hj
  intro n
  induction n with
  | zero => intro i0 s hi hj; simp [runPollFrom] at hi
  | succ n ih =>
      intro i0 s hi hj
      unfold runPollFrom at hi hj
      match ht : pollTick c (resp i0) s with
      | (TickResult.errored e2, s2) =>
          rw [ht] at hi hj
          simp only [List.mem_singleton, Prod.mk.injEq] at hi hj
          omega
      | (TickResult.skipped, s2) =>
          rw [ht] at hi hj
          rcases List.mem_cons.mp hi with hi0 | hirest
          · simp at hi0
          · rcases List.mem_cons.mp hj with hj0 | hjrest
            · have hge := runPollFrom_mem_ge c resp n (i0 + 1) s2 i (TickResult.errored e) hirest
              cases hj0
              omega
            · exact ih (i0 + 1) s2 hirest hjrest
      | (TickResult.emitted v, s2) =>
          rw [ht] at hi hj
          rcases List.mem_cons.mp hi with hi0 | hirest
          · simp at hi0
          · rcases List.mem_cons.mp hj with hj0 | hjrest
            · have hge := runPollFrom_mem_ge c resp n (i0 + 1) s2 i (TickResult.errored e) hirest
              cases hj0
              omega
            · exact ih (i0 + 1) s2 hirest hjrest

/-- C1 witness: two scheduled ticks where tick 0's fetch succeeds and
tick 1's fetch gets a 500 response; every tick index in the trace is at
most the erroring one. -/
theorem poll_error_terminates_stream_witness :
    ((1, TickResult.errored "500: http://host/poll") ∈ (runPoll pollCfg pollRespFail1 3 ()).1 ∧
     (0, TickResult.emitted (Json.str "data")) ∈ (runPoll pollCfg pollRespFail1 3 ()).1) ∧
    (0 : Nat) ≤ 1 :=
  ⟨⟨by decide, by decide⟩,
   poll_error_terminates_stream pollCfg pollRespFail1 3 1 0 "500: http://host/poll"
     (TickResult.emitted (Json.str "data")) () (by decide) (by decide)⟩

/-- C1 counterexample: with a two-tick schedule whose tick 0 fetch gets a
non-2xx response and whose tick 1 fetch would succeed, the stream's
whole trace is the single errored tick 0 — the interval is cancelled and
tick 1's fetch never runs, contradicting the claim that the interval
keeps ticking and a subsequent tick's fetch still runs while only that
single tick's event is lost. -/
theorem poll_tick_failure_kills_stream_cex :
    (runPoll pollCfg pollRespFail0 2 ()).1 = [(0, TickResult.errored "500: http://host/poll")] := by
  decide

theorem pollTick_first_gate_zero (resp : Except Err (Nat × Json)) :
    (∃ v, pollTick firstGateCfg resp 0 = (TickResult.emitted v, 1)) ∨
    (∃ e, pollTick firstGateCfg resp 0 = (TickResult.errored e, 1)) := by
  unfold pollTick
  rw [show shouldProcessEvent firstGateCfg 0 = (Except.ok true, 1) from rfl]
  cases hf : defaultFetch (firstGateCfg.sourceUrl.getD "") resp with
  | error e =>
      right
      exact ⟨e, by simp [hf, show strTruthy firstGateCfg.sourceUrl = true from rfl]⟩
  | ok v =>
      left
      exact ⟨v, by simp [hf, show strTruthy firstGateCfg.sourceUrl = true from rfl]⟩

theorem subTick_first_gate_zero (resp : Except Err (Nat × Json)) (wh : Except Err Nat) :
    subTick (fun j => j) firstGateCfg resp wh 0 = (SubOutcome.pipelineSkipped, 2) ∨
    ∃ e, subTick (fun j => j) firstGateCfg resp wh 0 = (SubOutcome.streamError e, 1) := by
  rcases pollTick_first_gate_zero resp with ⟨v, hv⟩ | ⟨e, he⟩
  · left
    unfold subTick
    rw [hv]
    rfl
  · right
    refine ⟨e, ?_⟩
    unfold subTick
    rw [he]

theorem subTick_first_gate_pos (m : Nat) (hm : 1 ≤ m) (resp : Except Err (Nat × Json))
    (wh : Except Err Nat) :
    subTick (fun j => j) firstGateCfg resp wh m = (SubOutcome.tickSkipped, m + 1) := by
  have hm0 : (decide (m = 0)) = false := by
    simp only [decide_eq_false_iff_not]
    omega
  unfold subTick pollTick
  rw [show shouldProcessEvent firstGateCfg m = (Except.ok (decide (m = 0)), m + 1) from rfl]
  rw [hm0]

theorem runPollSub_first_gate_pos (resp : Nat → Except Err (Nat × Json))
    (wh : Nat → Except Err Nat) :
    ∀ (n i m : Nat), 1 ≤ m → ∀ (jdx : Nat) (q : Json),
    (jdx, SubOutcome.forwarded q) ∉ (runPollSub (fun j => j) firstGateCfg resp wh i n m).1 := by
  intro n
  induction n with
  | zero => intro i m hm jdx q h; simp [runPollSub] at h
  | succ n ih =>
      intro i m hm jdx q h
      have hstep : runPollSub (fun j => j) firstGateCfg resp wh i (n + 1) m =
          ((i, SubOutcome.tickSkipped) ::
             (runPollSub (fun j => j) firstGateCfg resp wh (i + 1) n (m + 1)).1,
           (runPollSub (fun j => j) firstGateCfg resp wh (i + 1) n (m + 1)).2) := by
        conv_lhs => rw [runPollSub]
        rw [subTick_first_gate_pos m hm (resp i) (wh i)]
      rw [hstep] at h
      rcases List.mem_cons.mp h with h0 | hrest
      · simp at h0
      · exact ih (i + 1) (m + 1) (by omega) jdx q hrest

theorem runPollSub_first_gate_no_forward (resp : Nat → Except Err (Nat × Json))
    (wh : Nat → Except Err Nat) :
    ∀ (n jdx : Nat) (q : Json),
    (jdx, SubOutcome.forwarded q) ∉ (runPollSub (fun j => j) firstGateCfg resp wh 0 n 0).1 := by
  intro n jdx q h
  cases n with
  | zero => simp [runPollSub] at h
  | succ n =>
      rcases subTick_first_gate_zero (resp 0) (wh 0) with h0 | ⟨e, h0⟩
      · have hstep : runPollSub (fun j => j) firstGateCfg resp wh 0 (n + 1) 0 =
            ((0, SubOutcome.pipelineSkipped) ::
               (runPollSub (fun j => j) firstGateCfg resp wh 1 n 2).1,
             (runPollSub (fun j => j) firstGateCfg resp wh 1 n 2).2) := by
          conv_lhs => rw [runPollSub]
          rw [h0]
        rw [hstep] at h
        rcases List.mem_cons.mp h with hh | hh
        · simp at hh
        · exact runPollSub_first_gate_pos resp wh n 1 2 (by omega) jdx q hh
      · have hstep : runPollSub (fun j => j) firstGateCfg resp wh 0 (n + 1) 0 =
            ([(0, SubOutcome.streamError e)], 1) := by
          conv_lhs => rw [runPollSub]
          rw [h0]
        rw [hstep] at h
        simp at h

theorem processEvent_forwarded_inv {TReq TIn TOut σ : Type} (idCast : TIn → TOut)
    (c : ForwarderConfig TReq TIn TOut σ) (s0 : σ) (v : TIn) (wh : Except Err Nat)
    (p0 : TOut) (s3 : σ)
    (h : processEvent idCast c s0 v wh = (PipelineOutcome.forwarded p0, s3)) :
    pipelineBody idCast c s0 v wh = (Except.ok (some p0), s3) := by
  unfold processEvent at h
  split at h
  · simp at h
  · simp at h
  · rename_i p1 s4 heq
    simp only [Prod.mk.injEq, PipelineOutcome.forwarded.injEq] at h
    rw [heq, h.1, h.2]

theorem pipelineBody_gate_true {TReq TIn TOut σ : Type} (idCast : TIn → TOut)
    (c : ForwarderConfig TReq TIn TOut σ) (g : Gate TReq σ) (s0 : σ) (v : TIn)
    (wh : Except Err Nat) (p0 : TOut) (s3 : σ)
    (hg : c.shouldFetch = some g)
    (h : pipelineBody idCast c s0 v wh = (Except.ok (some p0), s3)) :
    (g s0 (resolveBody c)).1 = Except.ok true := by
  have hsp : shouldProcessEvent c s0 = g s0 (resolveBody c) := by
    unfold shouldProcessEvent
    rw [hg]
  unfold pipelineBody at h
  rw [hsp] at h
  split at h
  · simp at h
  · simp at h
  · rename_i s4 heq
    rw [heq]

theorem pollTick_emitted_gate {TReq TOut σ : Type} (c : ForwarderConfig TReq Json TOut σ)
    (g : Gate TReq σ) (resp : Except Err (Nat × Json)) (s : σ) (v : Json) (s2 : σ)
    (hg : c.shouldFetch = some g)
    (h : pollTick c resp s = (TickResult.emitted v, s2)) :
    g s (resolveBody c) = (Except.ok true, s2) := by
  have hsp : shouldProcessEvent c s = g s (resolveBody c) := by
    unfold shouldProcessEvent
    rw [hg]
  unfold pollTick at h
  rw [hsp] at h
  split at h
  · simp at h
  · simp at h
  · rename_i s4 heq
    split at h
    · simp at h
    · split at h
      · simp at h
      · simp only [Prod.mk.injEq, TickResult.emitted.injEq] at h
        rw [heq, h.2]

/-- C10: in a poll subscription the configured gate is consulted twice
per delivered event — once by the polling tick before the fetch and once
by the per-event pipeline before transform/forward, threading the same
closure state — so a tick can only forward when both consecutive gate
invocations return true; consequently with the stateful
true-only-on-first-call gate no polled event is ever forwarded, for any
number of ticks and any transport behaviour. -/
theorem poll_gate_evaluated_twice {TReq TOut σ : Type} (idCast : Json → TOut)
    (c : ForwarderConfig TReq Json TOut σ) (g : Gate TReq σ)
    (resp : Except Err (Nat × Json)) (wh : Except Err Nat) (s s2 : σ) (p : TOut)
    (hg : c.shouldFetch = some g)
    (hfwd : subTick idCast c resp wh s = (SubOutcome.forwarded p, s2)) :
    ((g s (resolveBody c)).1 = Except.ok true ∧
     (g ((g s (resolveBody c)).2) (resolveBody c)).1 = Except.ok true) ∧
    ∀ (resp2 : Nat → Except Err (Nat × Json)) (wh2 : Nat → Except Err Nat)
      (n jdx : Nat) (q : Json),
      (jdx, SubOutcome.forwarded q) ∉
        (runPollSub (fun j => j) firstGateCfg resp2 wh2 0 n 0).1 := by
  refine ⟨?_, fun resp2 wh2 n jdx q => runPollSub_first_gate_no_forward resp2 wh2 n jdx q⟩
  unfold subTick at hfwd
  split at hfwd
  · simp at hfwd
  · simp at hfwd
  · rename_i v sx heq
    have hg1 : g s (resolveBody c) = (Except.ok true, sx) :=
      pollTick_emitted_gate c g resp s v sx hg heq
    split at hfwd
    · rename_i p3 s3 heq2
      have hbody := processEvent_forwarded_inv idCast c sx v wh p3 s3 heq2
      have hg2 := pipelineBody_gate_true idCast c g sx v wh p3 s3 hg hbody
      rw [hg1]
      exact ⟨rfl, hg2⟩
    · simp at hfwd
    · simp at hfwd

/-- C10 witness: a poll tick with an always-true gate forwards its event
(both gate invocations returned true), and the first-call-only gate
never lets any tick forward. -/
theorem poll_gate_evaluated_twice_witness :
    (alwaysGateCfg.shouldFetch = some alwaysTrueGate ∧
     subTick (fun j => j) alwaysGateCfg (Except.ok (200, Json.str "d")) (Except.ok 200) ()
       = (SubOutcome.forwarded (Json.str "d"), ())) ∧
    (((alwaysTrueGate () (resolveBody alwaysGateCfg)).1 = Except.ok true ∧
      (alwaysTrueGate ((alwaysTrueGate () (resolveBody alwaysGateCfg)).2)
         (resolveBody alwaysGateCfg)).1 = Except.ok true) ∧
     ∀ (resp2 : Nat → Except Err (Nat × Json)) (wh2 : Nat → Except Err Nat)
       (n jdx : Nat) (q : Json),
       (jdx, SubOutcome.forwarded q) ∉
         (runPollSub (fun j => j) firstGateCfg resp2 wh2 0 n 0).1) :=
  ⟨⟨rfl, by decide⟩,
   poll_gate_evaluated_twice (fun j => j) alwaysGateCfg alwaysTrueGate
     (Except.ok (200, Json.str "d")) (Except.ok 200) () () (Json.str "d") rfl (by decide)⟩

/-- C5 (code bug evidence): with a socket whose every connection attempt
fails, the composed websocket pipe delivers no events, makes exactly one
connection attempt, and after the 5000 ms delay notifier completes the
stream COMPLETES — no reconnect attempt is ever made and no error
reaches the owner, although the retry callback logs a reconnect attempt
and the documentation promises automatic retry. The claimed behaviour
(three 5-second-delayed reconnects, then terminal error) would require
the delay notifier to emit; the code's notifier only completes. -/
theorem socket_retry_completes_without_retrying :
    createWebSocketStreamRun failingSocket = ([], StreamEnd.completed, 1, 5000) := by
  decide

/-- Contrast for the retry analysis: under the same failing socket, a
delay notifier that emits after 5000 ms (the evident intent, e.g.
`timer(5000)`) yields exactly the behaviour the specification describes:
four connection attempts (the initial one plus 3 retries), 15000 ms of
accumulated 5-second delays, and a terminal error. -/
theorem socket_retry_with_emitting_notifier :
    runRetry emittingNotifier 3 failingSocket 4 0
      = ([], StreamEnd.erroredOut "connection refused", 4, 15000) := by
  decide

/-- C7 counterexample: a connection delivering a frame that fails
validation (JSON null) followed by a well-formed frame. The subject
errors on the bad frame: no event at all is delivered (the good
subsequent frame included) and the connection is torn down with the
validation error — contradicting the claim that only the single bad
frame is dropped while the connection remains open and subsequent frames
are still delivered. -/
theorem ws_bad_frame_kills_connection_cex :
    runConnection [RawFrame.parsed Json.null, RawFrame.parsed (Json.str "ok")] ConnEnd.staysOpen
      = ([], some "Invalid input data") := by
  decide

/-- C7 amended: an inbound frame that fails to parse or fails the
non-empty/non-null validation errors the websocket subject after the
logged parse error: the frames before it are delivered, the connection
terminates with that error (feeding the retry path), and no frame after
it on that connection is delivered. -/
theorem ws_bad_frame_errors_subject (gs : List RawFrame) (b : RawFrame)
    (rest : List RawFrame) (ending : ConnEnd) (e : Err)
    (hgs : ∀ f ∈ gs, ∃ v, deserializeFrame f = Except.ok v)
    (hb : deserializeFrame b = Except.error e) :
    (runConnection (gs ++ b :: rest) ending).2 = some e ∧
    (runConnection (gs ++ b :: rest) ending).1.length = gs.length := by
  induction gs with
  | nil =>
      simp only [List.nil_append]
      unfold runConnection
      rw [hb]
      exact ⟨rfl, rfl⟩
  | cons f gs ih =>
      obtain ⟨v, hv⟩ := hgs f (List.mem_cons_self f gs)
      have ihr := ih (fun f2 hf2 => hgs f2 (List.mem_cons_of_mem f hf2))
      simp only [List.cons_append]
      unfold runConnection
      rw [hv]
      simp only [List.length_cons]
      exact ⟨ihr.1, by rw [ihr.2]⟩

/-- C7 witness: one good frame, then a null frame, then another good
frame that is never delivered. -/
theorem ws_bad_frame_errors_subject_witness :
    ((∀ f ∈ [RawFrame.parsed (Json.str "a")], ∃ v, deserializeFrame f = Except.ok v) ∧
     deserializeFrame (RawFrame.parsed Json.null) = Except.error "Invalid input data") ∧
    ((runConnection ([RawFrame.parsed (Json.str "a")] ++
        RawFrame.parsed Json.null :: [RawFrame.parsed (Json.str "c")])
        ConnEnd.staysOpen).2 = some "Invalid input data" ∧
     (runConnection ([RawFrame.parsed (Json.str "a")] ++
        RawFrame.parsed Json.null :: [RawFrame.parsed (Json.str "c")])
        ConnEnd.staysOpen).1.length = 1) :=
  ⟨⟨by
      intro f hf
      rw [List.mem_singleton] at hf
      subst hf
      exact ⟨Json.str "a", rfl⟩, rfl⟩,
   ws_bad_frame_errors_subject [RawFrame.parsed (Json.str "a")] (RawFrame.parsed Json.null)
     [RawFrame.parsed (Json.str "c")] ConnEnd.staysOpen "Invalid input data"
     (by
       intro f hf
       rw [List.mem_singleton] at hf
       subst hf
       exact ⟨Json.str "a", rfl⟩)
     rfl⟩

/-- C6 counterexample: subscribing key "k" with a custom configuration
whose factory rejects. `subscribe` returns the key normally (no
setup-time error reaches the caller), and after the rejection settles
the registry still holds the setup-subscription handle under "k" —
contradicting the claim that the registry holds no entry for that key
after the failure. -/
theorem custom_rejection_leaves_entry_cex :
    (subscribe emptyState "k" customRejectCfg).2 = Except.ok "k" ∧
    lookupKey (settleCustom (subscribe emptyState "k" customRejectCfg).1 "k" 0
        (FactoryOutcome.rejects "factory failed" : FactoryOutcome Json)).1.subs "k"
      = some (Teardown.subscription 0) := by
  exact ⟨rfl, by decide⟩

/-- C6 amended: a rejecting custom factory produces no setup-time error
from `subscribe` (the rejection is only logged by the setup error
handler, asynchronously): `subscribe` returns the key, the registry
keeps the setup-subscription handle under the key both before and after
the rejection settles, no event is ever delivered, and the only effect
of the rejection is that the setup resource stops running. -/
theorem custom_rejection_logged_entry_retained {TReq TIn TOut σ : Type}
    (st : FwdState) (id : String) (c : ForwarderConfig TReq TIn TOut σ) (e : Err)
    (htype : c.type = SourceKind.custom)
    (hcs : c.createStream = some (FactoryOutcome.rejects e))
    (hfresh : lookupKey st.subs id = none) :
    (subscribe st id c).2 = Except.ok id ∧
    lookupKey (subscribe st id c).1.subs id = some (Teardown.subscription st.nextRes) ∧
    (settleCustom (subscribe st id c).1 id st.nextRes
        (FactoryOutcome.rejects e : FactoryOutcome TIn)).2 = [] ∧
    lookupKey (settleCustom (subscribe st id c).1 id st.nextRes
        (FactoryOutcome.rejects e : FactoryOutcome TIn)).1.subs id
      = some (Teardown.subscription st.nextRes) ∧
    (st.nextRes, id) ∉ (settleCustom (subscribe st id c).1 id st.nextRes
        (FactoryOutcome.rejects e : FactoryOutcome TIn)).1.running := by
  have hpre : preStart st id = st := by
    unfold preStart
    rw [hfresh]
    rfl
  have hsub : subscribe st id c = (addSub st id, Except.ok id) := by
    unfold subscribe startPhase
    rw [hpre, htype, hcs]
  have hlook : lookupKey (addSub st id).subs id = some (Teardown.subscription st.nextRes) := by
    unfold addSub
    exact lookupKey_setKey_self st.subs id (Teardown.subscription st.nextRes)
  have hmem : st.nextRes ∈ (addSub st id).running.map Prod.fst := by
    unfold addSub
    exact List.mem_cons_self _ _
  have hsettle : settleCustom (addSub st id) id st.nextRes
      (FactoryOutcome.rejects e : FactoryOutcome TIn) =
      ({ subs := (addSub st id).subs
         running := (addSub st id).running.filter (fun p => p.1 ≠ st.nextRes)
         nextRes := (addSub st id).nextRes
         torndown := (addSub st id).torndown }, []) := by
    unfold settleCustom
    rw [if_pos hmem]
  rw [hsub]
  refine ⟨rfl, hlook, ?_, ?_, ?_⟩
  · rw [hsettle]
  · rw [hsettle]
    exact hlook
  · rw [hsettle]
    intro hmem2
    rw [List.mem_filter] at hmem2
    simp only [decide_eq_true_eq] at hmem2
    exact hmem2.2 rfl

/-- C6 witness: the concrete rejecting-factory subscription on a fresh
forwarder. -/
theorem custom_rejection_logged_entry_retained_witness :
    (customRejectCfg.type = SourceKind.custom ∧
     customRejectCfg.createStream = some (FactoryOutcome.rejects "factory failed") ∧
     lookupKey emptyState.subs "k" = none) ∧
    ((subscribe emptyState "k" customRejectCfg).2 = Except.ok "k" ∧
     lookupKey (subscribe emptyState "k" customRejectCfg).1.subs "k"
       = some (Teardown.subscription emptyState.nextRes) ∧
     (settleCustom (subscribe emptyState "k" customRejectCfg).1 "k" emptyState.nextRes
         (FactoryOutcome.rejects "factory failed" : FactoryOutcome Json)).2 = [] ∧
     lookupKey (settleCustom (subscribe emptyState "k" customRejectCfg).1 "k" emptyState.nextRes
         (FactoryOutcome.rejects "factory failed" : FactoryOutcome Json)).1.subs "k"
       = some (Teardown.subscription emptyState.nextRes) ∧
     (emptyState.nextRes, "k") ∉ (settleCustom (subscribe emptyState "k" customRejectCfg).1 "k"
         emptyState.nextRes
         (FactoryOutcome.rejects "factory failed" : FactoryOutcome Json)).1.running) :=
  ⟨⟨rfl, rfl, rfl⟩,
   custom_rejection_logged_entry_retained emptyState "k" customRejectCfg "factory failed"
     rfl rfl rfl⟩

end Hooktuah
